import Mathlib

/-!
Shallow embedding of the `unshare` crate (a low-level Linux child-process
launcher) and proofs about it.  The embedded definitions follow
`src/lib.rs` and `src/config.rs`; subsystems whose sources are not in the
repository snapshot (fork/exec engine, error channel, capability
application, wait/zombie machinery, id-map serialization) are modelled
from the specification, with a doc comment saying so.
-/

namespace Unshare

/-- Signal number of SIGKILL (`nix::sys::signal::SIGKILL`). -/
def SIGKILL : Nat := 9

/-- Namespace kinds, as in the crate's `Namespace` enum
(mount, UTS, IPC, user, PID, network). -/
inductive Namespace where
  | Mnt
  | Uts
  | Ipc
  | User
  | Pid
  | Net
deriving DecidableEq, Repr

/-- Clone flag bit for each namespace kind (`CLONE_NEWNS`, `CLONE_NEWUTS`,
`CLONE_NEWIPC`, `CLONE_NEWUSER`, `CLONE_NEWPID`, `CLONE_NEWNET`). -/
def Namespace.to_clone_flag : Namespace → Nat
  | .Mnt => 0x00020000
  | .Uts => 0x04000000
  | .Ipc => 0x08000000
  | .User => 0x10000000
  | .Pid => 0x20000000
  | .Net => 0x40000000

/-- One entry of a UID mapping table (`UidMap`): container-side id,
host-side id, count. -/
structure UidMap where
  inside_uid : Nat
  outside_uid : Nat
  count : Nat
deriving DecidableEq, Repr

/-- One entry of a GID mapping table (`GidMap`). -/
structure GidMap where
  inside_gid : Nat
  outside_gid : Nat
  count : Nat
deriving DecidableEq, Repr

/-- Exit status of a terminated process (`ExitStatus`): normal exit code,
or terminating signal plus core-dump flag.  Exactly one of the two shapes. -/
inductive ExitStatus where
  | Exited (code : Int)
  | Signaled (signal : Nat) (core_dumped : Bool)
deriving DecidableEq, Repr

/-- The `Config` struct of `src/config.rs`: OS-level launch intent.
`namespaces` is the `CloneFlags` bitset; `setns_namespaces` is the
kind-to-descriptor map (a `HashMap` in Rust, an association list here). -/
structure Config where
  death_sig : Option Nat
  work_dir : Option (List Nat)
  uid : Option Nat
  gid : Option Nat
  supplementary_gids : Option (List Nat)
  id_maps : Option (List UidMap × List GidMap)
  namespaces : Nat
  setns_namespaces : List (Namespace × Nat)
  restore_sigmask : Bool
  make_group_leader : Bool

/-- `Config::default()` from `src/config.rs`. -/
def Config.default : Config where
  death_sig := some SIGKILL
  work_dir := none
  uid := none
  gid := none
  supplementary_gids := none
  id_maps := none
  namespaces := 0
  setns_namespaces := []
  restore_sigmask := true
  make_group_leader := false

/-- The launch-plan fields of the `Command` struct of `src/lib.rs` that the
claims touch.  `keep_caps` is the `Option<[u32; 2]>` capability bitmask:
the pair components stand for the two 32-bit words. -/
structure Command where
  filename : List Nat
  args : List (List Nat)
  config : Config
  chroot_dir : Option (List Nat)
  pivot_root : Option (List Nat × List Nat × Bool)
  id_map_commands : Option (List Nat × List Nat)
  keep_caps : Option (Nat × Nat)

/-- The 64-bit value held by a `[u32; 2]` capability mask: word 0 is the
low 32 bits, word 1 the high 32 bits. -/
def maskValue (buf : Nat × Nat) : Nat :=
  buf.1 ||| buf.2 <<< 32

/-- Whether capability number `n` is present in a two-word mask. -/
def maskHasCap (buf : Nat × Nat) (n : Nat) : Bool :=
  Nat.testBit (maskValue buf) n

/-- Modelled from the spec: the public `keep_caps` builder method (its body
is not in the snapshot) folds each requested capability number into the
two-word `[u32; 2]` mask stored in `Command.keep_caps`, word `c / 32`,
bit `c % 32`; capability numbers the mask cannot hold are not storable. -/
def keepCapsStep (buf : Nat × Nat) (c : Nat) : Nat × Nat :=
  if c < 32 then (buf.1 ||| 1 <<< c, buf.2)
  else if c < 64 then (buf.1, buf.2 ||| 1 <<< (c - 32))
  else buf

/-- Modelled from the spec: the mask the `keep_caps` builder method stores
for a list of requested capability numbers. -/
def keepCapsOf (caps : List Nat) : Nat × Nat :=
  caps.foldl keepCapsStep (0, 0)

/-! ### Fork/exec engine and error channel

The engine (`run.rs`) and the error record (`error.rs`) are not in the
snapshot; they are modelled from the specification, section 4.6 and 7. -/

/-- Steps of the spawn protocol, used to tag errors (spec section 7
taxonomy).  `Validation` is the parent-side configuration check that runs
before process duplication. -/
inductive Step where
  | Validation
  | Fork
  | SetNs
  | SetIdMap
  | SetUser
  | Chroot
  | PivotRoot
  | Chdir
  | Caps
  | Sigmask
  | Fds
  | PreExec
  | SetPdeathsig
  | Exec
  | Wait
deriving DecidableEq, Repr

/-- Wire code of each step for the error-channel header. -/
def Step.code : Step → Nat
  | .Validation => 1
  | .Fork => 2
  | .SetNs => 3
  | .SetIdMap => 4
  | .SetUser => 5
  | .Chroot => 6
  | .PivotRoot => 7
  | .Chdir => 8
  | .Caps => 9
  | .Sigmask => 10
  | .Fds => 11
  | .PreExec => 12
  | .SetPdeathsig => 13
  | .Exec => 14
  | .Wait => 15

/-- Inverse of `Step.code`. -/
def decodeStep : Nat → Option Step
  | 1 => some .Validation
  | 2 => some .Fork
  | 3 => some .SetNs
  | 4 => some .SetIdMap
  | 5 => some .SetUser
  | 6 => some .Chroot
  | 7 => some .PivotRoot
  | 8 => some .Chdir
  | 9 => some .Caps
  | 10 => some .Sigmask
  | 11 => some .Fds
  | 12 => some .PreExec
  | 13 => some .SetPdeathsig
  | 14 => some .Exec
  | 15 => some .Wait
  | _ => none

/-- The structured error surfaced by `spawn`: failing step, OS error code,
optional short message (bytes). -/
structure SpawnError where
  step : Step
  errno : Nat
  message : List Nat
deriving DecidableEq, Repr

/-- The platform's guaranteed atomic pipe-write size (Linux `PIPE_BUF`). -/
def PIPE_BUF : Nat := 4096

/-- Modelled from the spec: the error-channel record written by the failing
child — a fixed-layout header (one step-code byte, four little-endian OS
error-code bytes) followed by the optional short message, truncated so the
whole record fits in one atomic pipe write. -/
def encodeErr (step : Step) (errno : Nat) (msg : List Nat) : List Nat :=
  step.code :: errno % 256 :: errno / 2 ^ 8 % 256 :: errno / 2 ^ 16 % 256 ::
    errno / 2 ^ 24 % 256 :: msg.take (PIPE_BUF - 5)

/-- Modelled from the spec: parsing of one error-channel record by the
parent (header then message). -/
def decodeErr : List Nat → Option SpawnError
  | c :: b0 :: b1 :: b2 :: b3 :: rest =>
    (decodeStep c).map fun s =>
      ⟨s, b0 + b1 * 2 ^ 8 + b2 * 2 ^ 16 + b3 * 2 ^ 24, rest⟩
  | _ => none

/-- Modelled from the spec: what the parent concludes from the bytes read
off the error channel before end-of-stream.  No bytes at all is the success
signal (the close-on-exec write end was closed by image replacement); any
bytes are one failure record.  A record the parent cannot parse is
surfaced as a `Wait`-step I/O failure (never a `Child`). -/
def readErrorChannel (bytes : List Nat) : Option SpawnError :=
  match bytes with
  | [] => none
  | _ =>
    match decodeErr bytes with
    | some e => some e
    | none => some ⟨.Wait, 5, []⟩

/-- Modelled from the spec: the configuration check `spawn` performs before
duplicating the process — a chroot path and a pivot-root triple are
mutually exclusive, and so are create-namespace and join-namespace for the
same kind (an entry of `setns_namespaces` whose clone flag is also set in
`namespaces`).  `EINVAL` (22) tags the error. -/
def configError (cmd : Command) : Option SpawnError :=
  if cmd.chroot_dir.isSome && cmd.pivot_root.isSome then
    some ⟨.Validation, 22, []⟩
  else if cmd.config.setns_namespaces.any
      (fun p => p.1.to_clone_flag &&& cmd.config.namespaces != 0) then
    some ⟨.Validation, 22, []⟩
  else
    none

/-- Modelled from the spec: the ordered in-child action list the engine
plans before duplication (spec 4.6 step 1): namespace joins, id-map
direct write, uid/gid/groups, chroot or pivot-root, working directory,
capability restriction, signal-mask restoration, descriptor wiring,
pre-exec hook, death-signal registration, image replacement. -/
def childSteps (cmd : Command) (hasPreExec : Bool) : List Step :=
  (if cmd.config.setns_namespaces != [] then [Step.SetNs] else []) ++
  (if cmd.config.id_maps.isSome then [Step.SetIdMap] else []) ++
  (if cmd.config.uid.isSome || cmd.config.gid.isSome ||
      cmd.config.supplementary_gids.isSome then [Step.SetUser] else []) ++
  (if cmd.chroot_dir.isSome then [Step.Chroot] else []) ++
  (if cmd.pivot_root.isSome then [Step.PivotRoot] else []) ++
  (if cmd.config.work_dir.isSome then [Step.Chdir] else []) ++
  (if cmd.keep_caps.isSome then [Step.Caps] else []) ++
  (if cmd.config.restore_sigmask then [Step.Sigmask] else []) ++
  [Step.Fds] ++
  (if hasPreExec then [Step.PreExec] else []) ++
  (if cmd.config.death_sig.isSome then [Step.SetPdeathsig] else []) ++
  [Step.Exec]

/-- An OS oracle: for each step, `none` means the underlying system calls
succeed, `some e` means the first of them fails with errno `e`. -/
def Oracle : Type := Step → Option Nat

/-- Modelled from the spec: the child executes the planned steps strictly
in order and stops at the first failure (spec 4.6 step 3). -/
def firstFailure (os : Oracle) : List Step → Option (Step × Nat)
  | [] => none
  | s :: rest =>
    match os s with
    | some e => some (s, e)
    | none => firstFailure os rest

/-- Modelled from the spec: everything the child writes to the error
channel: one encoded record on failure, nothing at all on success. -/
def channelBytes (os : Oracle) (steps : List Step) : List Nat :=
  match firstFailure os steps with
  | some (s, e) => encodeErr s e []
  | none => []

/-- The caller-facing handle of `src/lib.rs`'s `Child`: process id and
later-filled exit status. -/
structure Child where
  pid : Nat
  status : Option ExitStatus
deriving DecidableEq, Repr

/-- Result of one `spawn` call, with the observable side effects the
claims are about: whether the process was duplicated, whether a duplicated
process was reaped during failure handling, and the error-channel bytes. -/
structure SpawnResult where
  result : Except SpawnError Child
  forked : Bool
  reaped : Bool
  channel : List Nat

/-- Modelled from the spec: the spawn protocol (spec 4.6).  Validate the
configuration before duplication; duplicate; run the child's planned steps
(every outcome reaches the parent through the error channel); on a child
failure reap the duplicated process and return the single decoded error;
on success return the `Child` handle with its pid and empty status. -/
def spawn (cmd : Command) (hasPreExec : Bool) (os : Oracle) (newPid : Nat) :
    SpawnResult :=
  match configError cmd with
  | some e => ⟨.error e, false, false, []⟩
  | none =>
    match os .Fork with
    | some e => ⟨.error ⟨.Fork, e, []⟩, false, false, []⟩
    | none =>
      let bytes := channelBytes os (childSteps cmd hasPreExec)
      match readErrorChannel bytes with
      | some e => ⟨.error e, true, true, bytes⟩
      | none => ⟨.ok ⟨newPid, none⟩, true, false, bytes⟩

/-! ### Capability subsystem (spec 4.4; `caps.rs` is not in the snapshot) -/

/-- Capability state of a process: one 64-bit mask per class. -/
structure CapState where
  effective : Nat
  permitted : Nat
  inheritable : Nat
  ambient : Nat
deriving DecidableEq, Repr

/-- Whether the process holds capability `n` (in its effective set). -/
def CapState.hasCap (st : CapState) (n : Nat) : Bool :=
  st.effective.testBit n

/-- Modelled from the spec: the capability subsystem — given the
`keep_caps` keep-list it installs the minimal capability state holding
exactly the listed capabilities in every class, clearing everything else;
given no keep-list it leaves the capability state entirely untouched. -/
def applyKeepCaps (keep : Option (Nat × Nat)) (st : CapState) : CapState :=
  match keep with
  | none => st
  | some buf => ⟨maskValue buf, maskValue buf, maskValue buf, maskValue buf⟩

/-! ### Wait/zombie subsystem (spec 4.7; `wait.rs`/`zombies.rs` are not in
the snapshot) -/

/-- Modelled from the spec: direct wait on a `Child`.  Takes the OS's
termination answer for each pid as a function; returns the updated handle,
the status, and whether an OS wait call was made.  A cached status is
returned as is without touching the OS. -/
def Child.wait (os : Nat → ExitStatus) (c : Child) : Child × ExitStatus × Bool :=
  match c.status with
  | some s => (c, s, false)
  | none => (⟨c.pid, some (os c.pid)⟩, os c.pid, true)

/-- Modelled from the spec: the process-wide registry of termination
notifications not yet claimed by anyone — one `(pid, status)` entry per
terminated process. -/
abbrev Registry : Type := List (Nat × ExitStatus)

/-- Modelled from the spec: atomic claim-and-remove of the notification
for one pid (the direct-wait path).  Returns the claimed status, if any,
and the registry without that notification. -/
def claimPid : Registry → Nat → Option ExitStatus × Registry
  | [], _ => (none, [])
  | (p, s) :: rest, pid =>
    if p = pid then (some s, rest)
    else
      match claimPid rest pid with
      | (r, rest2) => (r, (p, s) :: rest2)

/-- A consumer action against the registry: a direct wait for one pid, or
one run of the process-wide zombie reaper (which claims everything). -/
inductive WaitOp where
  | direct (pid : Nat)
  | reapAll
deriving DecidableEq, Repr

/-- Modelled from the spec: run a sequence of consumers against the
registry and collect every termination notification each one observes.
`direct` claims (at most) its own pid's notification; `reapAll` drains the
registry. -/
def runWaitOps : Registry → List WaitOp → List (Nat × ExitStatus)
  | _, [] => []
  | pending, WaitOp.direct pid :: ops =>
    match claimPid pending pid with
    | (some s, pending2) => (pid, s) :: runWaitOps pending2 ops
    | (none, pending2) => runWaitOps pending2 ops
  | pending, WaitOp.reapAll :: ops => pending ++ runWaitOps [] ops

/-! ### Id-map serialization (spec 4.2 and 6; `idmap.rs`/`linux.rs` are
not in the snapshot) -/

/-- ASCII decimal digits of `n`, most significant first, as byte values. -/
def natBytes (n : Nat) : List Nat :=
  if h : n < 10 then [48 + n]
  else natBytes (n / 10) ++ [48 + n % 10]
termination_by n
decreasing_by exact Nat.div_lt_self (by omega) (by omega)

/-- Parse an ASCII decimal byte string; `none` unless the string is
nonempty and all digits. -/
def parseNatBytes (l : List Nat) : Option Nat :=
  if l.isEmpty then none
  else if l.all (fun b => 48 ≤ b && b ≤ 57) then
    some (l.foldl (fun a b => a * 10 + (b - 48)) 0)
  else none

/-- Split a byte string on a separator byte; `n` separators give `n + 1`
segments. -/
def splitByte (sep : Nat) : List Nat → List (List Nat)
  | [] => [[]]
  | b :: rest =>
    match splitByte sep rest with
    | [] => [[]]
    | g :: gs => if b = sep then [] :: g :: gs else (b :: g) :: gs

/-- Modelled from the spec: one line of the OS id-mapping format — the
three decimal integers (container id, host id, count) separated by single
spaces. -/
def renderIdMapLine (a b c : Nat) : List Nat :=
  natBytes a ++ 32 :: natBytes b ++ 32 :: natBytes c

/-- Modelled from the spec: the full text written to a `uid_map`/`gid_map`
target — one newline-terminated line per entry, in table order. -/
def renderIdMapText (ts : List (Nat × Nat × Nat)) : List Nat :=
  (ts.map fun t => renderIdMapLine t.1 t.2.1 t.2.2 ++ [10]).flatten

/-- Parse one id-mapping line back into its three integers. -/
def parseIdMapLine (l : List Nat) : Option (Nat × Nat × Nat) :=
  match splitByte 32 l with
  | [a, b, c] =>
    match parseNatBytes a, parseNatBytes b, parseNatBytes c with
    | some x, some y, some z => some (x, y, z)
    | _, _, _ => none
  | _ => none

/-- Parse a whole id-mapping text (every line newline-terminated) back
into its list of triples. -/
def parseIdMapText (bytes : List Nat) : Option (List (Nat × Nat × Nat)) :=
  if (splitByte 10 bytes).getLast? = some [] then
    (splitByte 10 bytes).dropLast.mapM parseIdMapLine
  else none

/-- The direct-write path for a UID map table: serialize the entries of
`UidMap` in the OS three-integer-per-line format. -/
def write_uid_map (l : List UidMap) : List Nat :=
  renderIdMapText (l.map fun e => (e.inside_uid, e.outside_uid, e.count))

/-- The direct-write path for a GID map table. -/
def write_gid_map (l : List GidMap) : List Nat :=
  renderIdMapText (l.map fun e => (e.inside_gid, e.outside_gid, e.count))

/-! ### Concrete inputs used to exercise the theorems -/

/-- A conflict-free command: default config, path `"/"`, no root change,
no keep-list. -/
def cmdOk : Command :=
  ⟨[47], [[47]], Config.default, none, none, none, none⟩

/-- A command with both a chroot path and a pivot-root triple set. -/
def cmdChrootPivot : Command :=
  { cmdOk with chroot_dir := some [47], pivot_root := some ([47], [111], true) }

/-- The oracle of a run where every system call succeeds. -/
def osNone : Oracle := fun _ => none

/-! ## Theorems -/

/-- Bit content of a two-word mask in terms of its words. -/
theorem maskHasCap_pair (w0 w1 n : Nat) :
    maskHasCap (w0, w1) n
      = (w0.testBit n || (decide (n ≥ 32) && w1.testBit (n - 32))) := by
  simp [maskHasCap, maskValue, Nat.testBit_or, Nat.testBit_shiftLeft]

/-- No in-range word pair has a bit at position 64 or above. -/
theorem maskHasCap_high_false (w0 w1 n : Nat) (h0 : w0 < 2 ^ 32)
    (h1 : w1 < 2 ^ 32) (hn : 64 ≤ n) : maskHasCap (w0, w1) n = false := by
  rw [maskHasCap_pair]
  have e0 : w0.testBit n = false :=
    Nat.testBit_lt_two_pow
      (lt_of_lt_of_le h0 (Nat.pow_le_pow_right (by norm_num) (by omega)))
  have e1 : w1.testBit (n - 32) = false :=
    Nat.testBit_lt_two_pow
      (lt_of_lt_of_le h1 (Nat.pow_le_pow_right (by norm_num) (by omega)))
  simp [e0, e1]

/-- One `keep_caps` fold step adds exactly the bit of the given capability
number, and only when that number is below 64. -/
theorem maskHasCap_keepCapsStep (buf : Nat × Nat) (c n : Nat) :
    maskHasCap (keepCapsStep buf c) n
      = (maskHasCap buf n || (decide (c = n) && decide (c < 64))) := by
  obtain ⟨w0, w1⟩ := buf
  unfold keepCapsStep
  split_ifs with h1 h2
  · rw [maskHasCap_pair, maskHasCap_pair]
    have hc : c < 64 := by omega
    by_cases hcn : c = n
    · subst hcn
      simp [Nat.one_shiftLeft, Nat.testBit_or, Nat.testBit_two_pow, hc]
    · simp [Nat.one_shiftLeft, Nat.testBit_or, Nat.testBit_two_pow, hcn]
  · rw [maskHasCap_pair, maskHasCap_pair]
    by_cases hcn : c = n
    · subst hcn
      have h32 : c ≥ 32 := by omega
      simp [Nat.one_shiftLeft, Nat.testBit_or, Nat.testBit_two_pow, h32, h2]
    · by_cases h32 : n ≥ 32
      · have hne : ¬(c - 32 = n - 32) := by omega
        simp [Nat.one_shiftLeft, Nat.testBit_or, Nat.testBit_two_pow, hcn, hne]
      · simp [Nat.one_shiftLeft, Nat.testBit_or, Nat.testBit_two_pow, hcn, h32]
  · simp [h2]

/-- Bit content of a `keep_caps` fold from an arbitrary accumulator. -/
theorem maskHasCap_foldl (caps : List Nat) (buf : Nat × Nat) (n : Nat) :
    maskHasCap (caps.foldl keepCapsStep buf) n
      = (maskHasCap buf n
          || caps.any fun c => decide (c = n) && decide (c < 64)) := by
  induction caps generalizing buf with
  | nil => simp
  | cons c caps ih =>
    simp only [List.foldl_cons, List.any_cons, ih, maskHasCap_keepCapsStep]
    cases maskHasCap buf n <;> simp

/-- Bit content of the stored `keep_caps` mask: exactly the listed
capability numbers below 64. -/
theorem maskHasCap_keepCapsOf (caps : List Nat) (n : Nat) :
    maskHasCap (keepCapsOf caps) n
      = caps.any fun c => decide (c = n) && decide (c < 64) := by
  rw [keepCapsOf, maskHasCap_foldl]
  have h0 : maskHasCap (0, 0) n = false := by
    rw [maskHasCap_pair]
    simp
  rw [h0, Bool.false_or]

/-- C10: the capability keep-list of a `Command` is stored as a fixed
two-word 32-bit bitmask (`keep_caps: Option<[u32; 2]>`), so it can only
represent capabilities numbered 0 through 63: every in-range word pair has
no bit at position 64 or above, and no capability list given to the
public keep-list interface makes the stored mask have one. -/
theorem keep_caps_only_low64 :
    (∀ w0 w1 : Nat, w0 < 2 ^ 32 → w1 < 2 ^ 32 →
      ∀ n : Nat, 64 ≤ n → maskHasCap (w0, w1) n = false) ∧
    (∀ (caps : List Nat) (n : Nat), 64 ≤ n →
      maskHasCap (keepCapsOf caps) n = false) := by
  constructor
  · exact fun w0 w1 h0 h1 n hn => maskHasCap_high_false w0 w1 n h0 h1 hn
  · intro caps n hn
    rw [maskHasCap_keepCapsOf]
    simp only [List.any_eq_false]
    intro c _
    simp only [Bool.and_eq_true, decide_eq_true_eq, not_and]
    omega

/-- Witness for C10 at concrete inputs. -/
theorem keep_caps_only_low64_witness :
    ((3 : Nat) < 2 ^ 32 ∧ (5 : Nat) < 2 ^ 32 ∧ 64 ≤ (64 : Nat)) ∧
    maskHasCap (3, 5) 64 = false ∧
    maskHasCap (keepCapsOf [0, 37, 63]) 64 = false :=
  ⟨⟨by norm_num, by norm_num, le_refl 64⟩,
   keep_caps_only_low64.1 3 5 (by norm_num) (by norm_num) 64 (le_refl 64),
   keep_caps_only_low64.2 [0, 37, 63] 64 (le_refl 64)⟩

/-- C5: for a configuration whose only special option is a capability
keep-list, the applied capability state holds exactly the listed
capabilities and no others; with no keep-list the capability state is left
entirely untouched. -/
theorem keep_caps_exact :
    (∀ (caps : List Nat) (st : CapState) (n : Nat),
        caps.all (fun c => decide (c < 64)) = true →
        (applyKeepCaps (some (keepCapsOf caps)) st).hasCap n
          = decide (n ∈ caps)) ∧
    (∀ st : CapState, applyKeepCaps none st = st) := by
  constructor
  · intro caps st n hall
    have hrw : (applyKeepCaps (some (keepCapsOf caps)) st).hasCap n
        = maskHasCap (keepCapsOf caps) n := rfl
    rw [hrw, maskHasCap_keepCapsOf]
    by_cases hmem : n ∈ caps
    · have hn64 : n < 64 := by
        have := List.all_eq_true.mp hall n hmem
        simpa using this
      simp only [hmem, decide_True]
      rw [List.any_eq_true]
      exact ⟨n, hmem, by simp [hn64]⟩
    · simp only [hmem, decide_False]
      simp only [List.any_eq_false]
      intro c hc
      have hne : c ≠ n := fun h => hmem (h ▸ hc)
      simp [hne]
  · intro st
    rfl

/-- Witness for C5 at concrete inputs. -/
theorem keep_caps_exact_witness :
    ([1, 33].all (fun c => decide (c < 64)) = true) ∧
    (applyKeepCaps (some (keepCapsOf [1, 33])) ⟨9, 9, 9, 9⟩).hasCap 33
      = decide (33 ∈ [1, 33]) :=
  ⟨by decide, keep_caps_exact.1 [1, 33] ⟨9, 9, 9, 9⟩ 33 (by decide)⟩

/-- C4: `Config::default()` sets the parent-death signal to immediate
kill: its `death_sig` field is `Some(SIGKILL)`. -/
theorem default_death_sig_is_sigkill :
    Config.default.death_sig = some SIGKILL := rfl

/-- C9: beyond the SIGKILL death signal, `Config::default()` restores the
signal mask, does not make the child a group leader, requests no namespace
creation, joins no namespaces, and leaves working directory, uid, gid,
supplementary groups and id-map tables unset. -/
theorem default_config_fields :
    Config.default.restore_sigmask = true ∧
    Config.default.make_group_leader = false ∧
    Config.default.namespaces = 0 ∧
    Config.default.setns_namespaces = [] ∧
    Config.default.work_dir = none ∧
    Config.default.uid = none ∧
    Config.default.gid = none ∧
    Config.default.supplementary_gids = none ∧
    Config.default.id_maps = none :=
  ⟨rfl, rfl, rfl, rfl, rfl, rfl, rfl, rfl, rfl⟩

/-- C6: direct wait on a `Child` is idempotent — a second wait returns the
same status as the first with no second OS wait call and leaves the handle
unchanged; the first wait fills the status field (with exactly one OS call
when nothing was cached yet). -/
theorem wait_idempotent (os : Nat → ExitStatus) (c : Child) :
    ((c.wait os).1.wait os).2.1 = (c.wait os).2.1 ∧
    ((c.wait os).1.wait os).2.2 = false ∧
    ((c.wait os).1.wait os).1 = (c.wait os).1 ∧
    (c.wait os).1.status = some (c.wait os).2.1 ∧
    (c.status = none → (c.wait os).2.2 = true) := by
  obtain ⟨pid, status⟩ := c
  cases status <;> simp [Child.wait]

/-- Witness for C6 at a concrete child and OS answer. -/
theorem wait_idempotent_witness :
    (Child.mk 5 none).status = none ∧
    ((Child.wait (fun _ => ExitStatus.Exited 0) ⟨5, none⟩).1.wait
        (fun _ => ExitStatus.Exited 0)).2.2 = false ∧
    (Child.wait (fun _ => ExitStatus.Exited 0) ⟨5, none⟩).2.2 = true := by
  have h := wait_idempotent (fun _ => ExitStatus.Exited 0) ⟨5, none⟩
  exact ⟨rfl, h.2.1, h.2.2.2.2 rfl⟩

/-- `decodeStep` inverts `Step.code`. -/
theorem decodeStep_code (s : Step) : decodeStep s.code = some s := by
  cases s <;> rfl

/-- Every encoded error record fits in one atomic pipe write. -/
theorem encodeErr_length (s : Step) (e : Nat) (m : List Nat) :
    (encodeErr s e m).length ≤ PIPE_BUF := by
  simp only [encodeErr, PIPE_BUF, List.length_cons, List.length_take]
  omega

/-- Decoding inverts encoding of an error record. -/
theorem decodeErr_encodeErr (s : Step) (e : Nat) (m : List Nat)
    (he : e < 2 ^ 32) :
    decodeErr (encodeErr s e m) = some ⟨s, e, m.take (PIPE_BUF - 5)⟩ := by
  simp only [encodeErr, decodeErr, decodeStep_code, Option.map_some]
  have hval : e % 256 + e / 2 ^ 8 % 256 * 2 ^ 8 + e / 2 ^ 16 % 256 * 2 ^ 16 +
      e / 2 ^ 24 % 256 * 2 ^ 24 = e := by omega
  rw [hval]
  rfl

/-- The parent reads one full record back from an encoded channel. -/
theorem readErrorChannel_encodeErr (s : Step) (e : Nat) (m : List Nat)
    (he : e < 2 ^ 32) :
    readErrorChannel (encodeErr s e m) = some ⟨s, e, m.take (PIPE_BUF - 5)⟩ := by
  have hd := decodeErr_encodeErr s e m he
  rw [encodeErr] at hd ⊢
  simp only [readErrorChannel, hd]

/-- A failure reported by `firstFailure` is a real failure of its step. -/
theorem firstFailure_some (os : Oracle) (l : List Step) (s : Step) (e : Nat)
    (h : firstFailure os l = some (s, e)) : os s = some e := by
  induction l with
  | nil => simp [firstFailure] at h
  | cons a l ih =>
    simp only [firstFailure] at h
    cases hos : os a with
    | some k =>
      rw [hos] at h
      simp only [Option.some.injEq, Prod.mk.injEq] at h
      rw [← h.1, ← h.2]
      exact hos
    | none =>
      rw [hos] at h
      exact ih h

/-- `spawn` on a configuration conflict: a validation error before any
duplication. -/
theorem spawn_eq_of_configError (cmd : Command) (hp : Bool) (os : Oracle)
    (pid : Nat) (e : SpawnError) (hce : configError cmd = some e) :
    spawn cmd hp os pid = ⟨.error e, false, false, []⟩ := by
  simp only [spawn, hce]

/-- `spawn` when process duplication itself fails. -/
theorem spawn_eq_of_forkFail (cmd : Command) (hp : Bool) (os : Oracle)
    (pid : Nat) (e : Nat) (hce : configError cmd = none)
    (hfork : os .Fork = some e) :
    spawn cmd hp os pid = ⟨.error ⟨.Fork, e, []⟩, false, false, []⟩ := by
  simp only [spawn, hce, hfork]

/-- `spawn` when every child step succeeds: a fresh `Child`, an empty
error channel, nothing reaped. -/
theorem spawn_eq_of_success (cmd : Command) (hp : Bool) (os : Oracle)
    (pid : Nat) (hce : configError cmd = none) (hfork : os .Fork = none)
    (hff : firstFailure os (childSteps cmd hp) = none) :
    spawn cmd hp os pid = ⟨.ok ⟨pid, none⟩, true, false, []⟩ := by
  have hch : channelBytes os (childSteps cmd hp) = [] := by
    simp [channelBytes, hff]
  simp only [spawn, hce, hfork, hch]
  rfl

/-- `spawn` when a child step fails: the duplicated process is reaped and
the single decoded record is surfaced. -/
theorem spawn_eq_of_childFail (cmd : Command) (hp : Bool) (os : Oracle)
    (pid : Nat) (s : Step) (e : Nat) (hce : configError cmd = none)
    (hfork : os .Fork = none)
    (hff : firstFailure os (childSteps cmd hp) = some (s, e))
    (he : e < 2 ^ 32) :
    spawn cmd hp os pid = ⟨.error ⟨s, e, []⟩, true, true, encodeErr s e []⟩ := by
  have hch : channelBytes os (childSteps cmd hp) = encodeErr s e [] := by
    simp [channelBytes, hff]
  have hrd : readErrorChannel (encodeErr s e []) = some ⟨s, e, []⟩ := by
    simpa using readErrorChannel_encodeErr s e [] he
  simp only [spawn, hce, hfork, hch, hrd]

/-- C1: `spawn` returns either a fully valid `Child` (the new pid, empty
status) or a single step-tagged error; when the failure happened in the
child after duplication, the error names exactly the first failing step
with its OS error code and the duplicated process has been reaped. -/
theorem spawn_atomic (cmd : Command) (hp : Bool) (os : Oracle) (pid : Nat)
    (hos : ∀ s k, os s = some k → k < 2 ^ 32) :
    (∃ c, (spawn cmd hp os pid).result = .ok c ∧ c.pid = pid ∧
      c.status = none) ∨
    (∃ e, (spawn cmd hp os pid).result = .error e ∧
      ((spawn cmd hp os pid).forked = true →
        (spawn cmd hp os pid).reaped = true ∧
        firstFailure os (childSteps cmd hp) = some (e.step, e.errno))) := by
  cases hce : configError cmd with
  | some e =>
    right
    rw [spawn_eq_of_configError cmd hp os pid e hce]
    exact ⟨e, rfl, fun hf => Bool.noConfusion hf⟩
  | none =>
    cases hfork : os .Fork with
    | some e =>
      right
      rw [spawn_eq_of_forkFail cmd hp os pid e hce hfork]
      exact ⟨⟨.Fork, e, []⟩, rfl, fun hf => Bool.noConfusion hf⟩
    | none =>
      cases hff : firstFailure os (childSteps cmd hp) with
      | none =>
        left
        rw [spawn_eq_of_success cmd hp os pid hce hfork hff]
        exact ⟨⟨pid, none⟩, rfl, rfl, rfl⟩
      | some pe =>
        obtain ⟨s, e⟩ := pe
        right
        have he32 : e < 2 ^ 32 := hos s e (firstFailure_some os _ s e hff)
        rw [spawn_eq_of_childFail cmd hp os pid s e hce hfork hff he32]
        exact ⟨⟨s, e, []⟩, rfl, fun _ => ⟨rfl, rfl⟩⟩

/-- Witness for C1: a conflict-free command under an all-success oracle
yields a valid `Child` with the new pid and no status. -/
theorem spawn_atomic_witness :
    (∃ c, (spawn cmdOk false osNone 7).result = .ok c ∧ c.pid = 7 ∧
      c.status = none) ∨
    (∃ e, (spawn cmdOk false osNone 7).result = .error e ∧
      ((spawn cmdOk false osNone 7).forked = true →
        (spawn cmdOk false osNone 7).reaped = true ∧
        firstFailure osNone (childSteps cmdOk false) =
          some (e.step, e.errno))) :=
  spawn_atomic cmdOk false osNone 7 (fun _ _ h => Option.noConfusion h)

/-- C2: the error channel carries failure as one fixed-layout record that
always fits in the platform's atomic pipe-write size and decodes back in
full (no partial record); on a failed child run the channel holds exactly
that one record, and on a successful run nothing is ever written — the
only success signal is the channel closing. -/
theorem error_channel_record :
    (∀ (s : Step) (e : Nat) (m : List Nat),
        (encodeErr s e m).length ≤ PIPE_BUF) ∧
    (∀ (s : Step) (e : Nat) (m : List Nat), e < 2 ^ 32 →
        decodeErr (encodeErr s e m) = some ⟨s, e, m.take (PIPE_BUF - 5)⟩) ∧
    (∀ (cmd : Command) (hp : Bool) (os : Oracle) (pid : Nat) (s : Step)
        (e : Nat), configError cmd = none → os .Fork = none → e < 2 ^ 32 →
        firstFailure os (childSteps cmd hp) = some (s, e) →
        (spawn cmd hp os pid).channel = encodeErr s e []) ∧
    (∀ (cmd : Command) (hp : Bool) (os : Oracle) (pid : Nat),
        firstFailure os (childSteps cmd hp) = none →
        (spawn cmd hp os pid).channel = []) := by
  refine ⟨encodeErr_length, decodeErr_encodeErr, ?_, ?_⟩
  · intro cmd hp os pid s e hce hfork he hff
    rw [spawn_eq_of_childFail cmd hp os pid s e hce hfork hff he]
  · intro cmd hp os pid hff
    cases hce : configError cmd with
    | some e => rw [spawn_eq_of_configError cmd hp os pid e hce]
    | none =>
      cases hfork : os .Fork with
      | some e => rw [spawn_eq_of_forkFail cmd hp os pid e hce hfork]
      | none => rw [spawn_eq_of_success cmd hp os pid hce hfork hff]

/-- Witness for C2: a concrete record decodes back in full; a concrete
successful spawn writes nothing to the channel. -/
theorem error_channel_record_witness :
    ((2 : Nat) < 2 ^ 32) ∧
    decodeErr (encodeErr .Chroot 2 [65]) =
      some ⟨.Chroot, 2, [65].take (PIPE_BUF - 5)⟩ ∧
    (spawn cmdOk false osNone 7).channel = [] :=
  ⟨by norm_num,
   error_channel_record.2.1 .Chroot 2 [65] (by norm_num),
   error_channel_record.2.2.2 cmdOk false osNone 7 rfl⟩

/-- A configuration with mutually exclusive options set together is
rejected by the pre-duplication validation with a validation-tagged
error. -/
theorem configError_of_conflict (cmd : Command)
    (h : (cmd.chroot_dir.isSome = true ∧ cmd.pivot_root.isSome = true) ∨
         (∃ p ∈ cmd.config.setns_namespaces,
            p.1.to_clone_flag &&& cmd.config.namespaces ≠ 0)) :
    ∃ e, configError cmd = some e ∧ e.step = .Validation := by
  unfold configError
  split_ifs with h1 h2
  · exact ⟨_, rfl, rfl⟩
  · exact ⟨_, rfl, rfl⟩
  · exfalso
    rcases h with ⟨ha, hb⟩ | ⟨p, hmem, hflag⟩
    · exact h1 (by simp [ha, hb])
    · apply h2
      rw [List.any_eq_true]
      exact ⟨p, hmem, by simpa using hflag⟩

/-- C3: for every configuration that sets a chroot path together with a
pivot-root triple, or create-namespace together with join-namespace for
the same kind, `spawn` fails before process duplication with a
configuration-tagged error — it never duplicates. -/
theorem conflict_fails_before_fork (cmd : Command) (hp : Bool) (os : Oracle)
    (pid : Nat)
    (h : (cmd.chroot_dir.isSome = true ∧ cmd.pivot_root.isSome = true) ∨
         (∃ p ∈ cmd.config.setns_namespaces,
            p.1.to_clone_flag &&& cmd.config.namespaces ≠ 0)) :
    (spawn cmd hp os pid).forked = false ∧
    ∃ e, (spawn cmd hp os pid).result = .error e ∧ e.step = .Validation := by
  obtain ⟨e, he, hstep⟩ := configError_of_conflict cmd h
  rw [spawn_eq_of_configError cmd hp os pid e he]
  exact ⟨rfl, e, rfl, hstep⟩

/-- Witness for C3: a command with both root-change options set is
rejected before duplication. -/
theorem conflict_fails_before_fork_witness :
    (cmdChrootPivot.chroot_dir.isSome = true ∧
      cmdChrootPivot.pivot_root.isSome = true) ∧
    (spawn cmdChrootPivot false osNone 1).forked = false ∧
    ∃ e, (spawn cmdChrootPivot false osNone 1).result = .error e ∧
      e.step = .Validation := by
  have h := conflict_fails_before_fork cmdChrootPivot false osNone 1
    (Or.inl ⟨rfl, rfl⟩)
  exact ⟨⟨rfl, rfl⟩, h⟩

/-- Claiming a pid removes exactly one matching notification from the
registry (when one is there) and touches nothing else. -/
theorem claimPid_countP (l : Registry) (pid q : Nat) :
    (claimPid l pid).2.countP (fun x => x.1 == q)
      + (if (claimPid l pid).1.isSome ∧ pid = q then 1 else 0)
      = l.countP (fun x => x.1 == q) := by
  induction l with
  | nil => simp [claimPid]
  | cons hd rest ih =>
    obtain ⟨p, s⟩ := hd
    simp only [claimPid]
    by_cases hp : p = pid
    · simp only [if_pos hp, List.countP_cons]
      by_cases hq : pid = q
      · simp [hp, hq]
      · have hpq : ¬(p == q) = true := by simp [hp, hq]
        simp [hq, hpq]
    · simp only [if_neg hp]
      cases hcl : claimPid rest pid with
      | mk r rest2 =>
        rw [hcl] at ih
        simp only [List.countP_cons] at ih ⊢
        omega

/-- Over any sequence of consumers, a pid is observed at most as many
times as the registry holds notifications for it. -/
theorem runWaitOps_countP_le (ops : List WaitOp) (pending : Registry)
    (pid : Nat) :
    (runWaitOps pending ops).countP (fun x => x.1 == pid)
      ≤ pending.countP (fun x => x.1 == pid) := by
  induction ops generalizing pending with
  | nil => simp [runWaitOps]
  | cons op ops ih =>
    cases op with
    | direct q =>
      simp only [runWaitOps]
      cases hcl : claimPid pending q with
      | mk r pending2 =>
        have hc := claimPid_countP pending q pid
        rw [hcl] at hc
        have hi := ih pending2
        cases r with
        | some s =>
          show ((q, s) :: runWaitOps pending2 ops).countP
              (fun x => x.1 == pid) ≤ pending.countP (fun x => x.1 == pid)
          rw [List.countP_cons]
          simp only [Option.isSome_some, true_and] at hc
          by_cases hq : q = pid
          · rw [if_pos hq] at hc
            rw [if_pos (by simpa using hq)]
            omega
          · rw [if_neg hq] at hc
            rw [if_neg (by simpa using hq)]
            omega
        | none =>
          show (runWaitOps pending2 ops).countP (fun x => x.1 == pid)
              ≤ pending.countP (fun x => x.1 == pid)
          simp only [Option.isSome_none, false_and, if_neg, Bool.false_eq_true,
            not_false_eq_true, add_zero] at hc
          omega
    | reapAll =>
      simp only [runWaitOps, List.countP_append]
      have hi := ih []
      simp only [List.countP_nil, Nat.le_zero] at hi
      omega

/-- C7: for every terminated process id, at most one consumer — a direct
wait or the process-wide reaper — observes its termination notification
over any sequence of consumer runs; with at most one notification
registered for a pid, at most one observation of it ever occurs. -/
theorem termination_observed_once (pending : Registry) (ops : List WaitOp)
    (pid : Nat) :
    (runWaitOps pending ops).countP (fun x => x.1 == pid)
      ≤ pending.countP (fun x => x.1 == pid) ∧
    (pending.countP (fun x => x.1 == pid) ≤ 1 →
      (runWaitOps pending ops).countP (fun x => x.1 == pid) ≤ 1) := by
  have h := runWaitOps_countP_le ops pending pid
  exact ⟨h, fun h1 => h.trans h1⟩

/-- Witness for C7: one notification for pid 3, claimed by the first of
three consumers; the later reaper and second direct wait observe nothing
for it. -/
theorem termination_observed_once_witness :
    ([((3 : Nat), ExitStatus.Exited 0)].countP (fun x => x.1 == 3) ≤ 1) ∧
    (runWaitOps [((3 : Nat), ExitStatus.Exited 0)]
        [WaitOp.direct 3, WaitOp.reapAll, WaitOp.direct 3]).countP
        (fun x => x.1 == 3) ≤ 1 := by
  have h := termination_observed_once [((3 : Nat), ExitStatus.Exited 0)]
    [WaitOp.direct 3, WaitOp.reapAll, WaitOp.direct 3] 3
  exact ⟨by decide, h.2 (by decide)⟩

/-- Decimal digit bytes are ASCII digits. -/
theorem natBytes_digits (n : Nat) : ∀ b ∈ natBytes n, 48 ≤ b ∧ b ≤ 57 := by
  induction n using Nat.strong_induction_on with
  | _ n ih =>
    rw [natBytes]
    split_ifs with h
    · intro b hb
      simp only [List.mem_singleton] at hb
      omega
    · intro b hb
      rw [List.mem_append] at hb
      rcases hb with hb | hb
      · exact ih (n / 10) (Nat.div_lt_self (by omega) (by omega)) b hb
      · simp only [List.mem_singleton] at hb
        have := Nat.mod_lt n (show 0 < 10 by omega)
        omega

/-- A number always renders to at least one digit. -/
theorem natBytes_ne_nil (n : Nat) : natBytes n ≠ [] := by
  rw [natBytes]
  split_ifs with h <;> simp

/-- Folding the digit bytes of `n` onto an accumulator computes
`a * 10 ^ digits + n`. -/
theorem natBytes_foldl (n : Nat) : ∀ a : Nat,
    (natBytes n).foldl (fun acc b => acc * 10 + (b - 48)) a
      = a * 10 ^ (natBytes n).length + n := by
  induction n using Nat.strong_induction_on with
  | _ n ih =>
    intro a
    rw [natBytes]
    split_ifs with h
    · simp only [List.foldl_cons, List.foldl_nil, List.length_singleton,
        pow_one]
      omega
    · rw [List.foldl_append, ih (n / 10) (Nat.div_lt_self (by omega) (by omega)) a]
      simp only [List.foldl_cons, List.foldl_nil, List.length_append,
        List.length_singleton]
      rw [pow_succ, ← Nat.mul_assoc]
      generalize a * 10 ^ (natBytes (n / 10)).length = t
      omega

/-- Parsing inverts decimal rendering. -/
theorem parseNatBytes_natBytes (n : Nat) : parseNatBytes (natBytes n) = some n := by
  unfold parseNatBytes
  split_ifs with h1 h2
  · exact absurd (List.isEmpty_iff.mp h1) (natBytes_ne_nil n)
  · rw [natBytes_foldl n 0]
    simp
  · exfalso
    apply h2
    rw [List.all_eq_true]
    intro b hb
    have := natBytes_digits n b hb
    simp only [Bool.and_eq_true, decide_eq_true_eq]
    omega

/-- `splitByte` never returns an empty segment list. -/
theorem splitByte_ne_nil (sep : Nat) (l : List Nat) : splitByte sep l ≠ [] := by
  induction l with
  | nil => simp [splitByte]
  | cons b rest ih =>
    simp only [splitByte]
    cases hsr : splitByte sep rest with
    | nil => simp
    | cons g gs => split_ifs <;> simp

/-- A separator-free byte string splits into itself alone. -/
theorem splitByte_no_sep (sep : Nat) (l : List Nat) (h : ∀ b ∈ l, b ≠ sep) :
    splitByte sep l = [l] := by
  induction l with
  | nil => rfl
  | cons b rest ih =>
    have hb : b ≠ sep := h b (List.mem_cons_self b rest)
    simp only [splitByte]
    rw [ih (fun x hx => h x (List.mem_cons_of_mem b hx))]
    simp [hb]

/-- Splitting past a separator peels off the separator-free head
segment. -/
theorem splitByte_append (sep : Nat) (xs ys : List Nat)
    (h : ∀ b ∈ xs, b ≠ sep) :
    splitByte sep (xs ++ sep :: ys) = xs :: splitByte sep ys := by
  induction xs with
  | nil =>
    simp only [List.nil_append, splitByte]
    cases hsr : splitByte sep ys with
    | nil => exact absurd hsr (splitByte_ne_nil sep ys)
    | cons g gs => simp
  | cons b xs ih =>
    have hb : b ≠ sep := h b (List.mem_cons_self b xs)
    simp only [List.cons_append, splitByte]
    rw [List.append_eq, ih (fun x hx => h x (List.mem_cons_of_mem b hx))]
    simp [hb]

/-- Normalized shape of a rendered id-map line. -/
theorem renderIdMapLine_eq (a b c : Nat) :
    renderIdMapLine a b c
      = natBytes a ++ 32 :: (natBytes b ++ 32 :: natBytes c) := by
  simp [renderIdMapLine]

/-- Every byte of a rendered id-map line is a space or a digit. -/
theorem renderIdMapLine_mem (a b c x : Nat)
    (hx : x ∈ renderIdMapLine a b c) : x = 32 ∨ (48 ≤ x ∧ x ≤ 57) := by
  rw [renderIdMapLine_eq] at hx
  simp only [List.mem_append, List.mem_cons] at hx
  rcases hx with hx | hx | hx | hx | hx
  · exact Or.inr (natBytes_digits a x hx)
  · exact Or.inl hx
  · exact Or.inr (natBytes_digits b x hx)
  · exact Or.inl hx
  · exact Or.inr (natBytes_digits c x hx)

/-- Splitting a rendered line on spaces recovers the three digit
fields. -/
theorem splitByte_renderIdMapLine (a b c : Nat) :
    splitByte 32 (renderIdMapLine a b c)
      = [natBytes a, natBytes b, natBytes c] := by
  rw [renderIdMapLine_eq]
  rw [splitByte_append 32 (natBytes a) _
    (fun x hx => by have := natBytes_digits a x hx; omega)]
  rw [splitByte_append 32 (natBytes b) _
    (fun x hx => by have := natBytes_digits b x hx; omega)]
  rw [splitByte_no_sep 32 (natBytes c)
    (fun x hx => by have := natBytes_digits c x hx; omega)]

/-- Parsing inverts rendering for one id-map line. -/
theorem parseIdMapLine_render (a b c : Nat) :
    parseIdMapLine (renderIdMapLine a b c) = some (a, b, c) := by
  unfold parseIdMapLine
  rw [splitByte_renderIdMapLine]
  show (match parseNatBytes (natBytes a), parseNatBytes (natBytes b),
      parseNatBytes (natBytes c) with
    | some x, some y, some z => some (x, y, z)
    | _, _, _ => none) = some (a, b, c)
  rw [parseNatBytes_natBytes, parseNatBytes_natBytes, parseNatBytes_natBytes]

/-- Rendered id-map text is one rendered line per entry plus a trailing
empty segment when split on newlines. -/
theorem splitByte_renderIdMapText (ts : List (Nat × Nat × Nat)) :
    splitByte 10 (renderIdMapText ts)
      = (ts.map fun t => renderIdMapLine t.1 t.2.1 t.2.2) ++ [[]] := by
  induction ts with
  | nil => rfl
  | cons t ts ih =>
    have hcons : renderIdMapText (t :: ts)
        = renderIdMapLine t.1 t.2.1 t.2.2 ++ 10 :: renderIdMapText ts := by
      simp [renderIdMapText]
    rw [hcons]
    rw [splitByte_append 10 _ _
      (fun x hx => by rcases renderIdMapLine_mem _ _ _ x hx with h | h <;> omega)]
    rw [ih]
    simp

/-- Line-by-line parsing inverts line-by-line rendering. -/
theorem mapM_parseIdMapLine (ts : List (Nat × Nat × Nat)) :
    (ts.map fun t => renderIdMapLine t.1 t.2.1 t.2.2).mapM parseIdMapLine
      = some ts := by
  induction ts with
  | nil => rfl
  | cons t ts ih =>
    simp only [List.map_cons, List.mapM_cons, parseIdMapLine_render, ih]
    rfl

/-- Round-trip of the id-map direct-write serialization. -/
theorem parseIdMapText_render (ts : List (Nat × Nat × Nat)) :
    parseIdMapText (renderIdMapText ts) = some ts := by
  unfold parseIdMapText
  rw [splitByte_renderIdMapText]
  rw [List.getLast?_concat, if_pos rfl, List.dropLast_concat]
  exact mapM_parseIdMapLine ts

/-- C8: writing a UID or GID map table through the direct-write path in
the OS three-integer-per-line format and reading it back yields the same
(container id, host id, count) triples in the same order. -/
theorem id_map_roundtrip :
    (∀ l : List UidMap, parseIdMapText (write_uid_map l)
        = some (l.map fun e => (e.inside_uid, e.outside_uid, e.count))) ∧
    (∀ l : List GidMap, parseIdMapText (write_gid_map l)
        = some (l.map fun e => (e.inside_gid, e.outside_gid, e.count))) :=
  ⟨fun _ => parseIdMapText_render _, fun _ => parseIdMapText_render _⟩

end Unshare
